import Mathlib

/-!
Verification development for the kt-dashboard ingestion pipeline (src/app.py).

The embedding models the two CSV loaders, `load_clicks` and `load_conversions`,
together with the column resolver `pick_col`, over explicit warehouse states.
Machine-level conventions of the pandas/Postgres stack that the source relies on
are modelled explicitly where they matter:
  - a CSV cell is `Option String`: `none` is a pandas NaN (missing field),
    `some s` a string value;
  - `astype(str)` renders NaN as the literal string "nan" (`strCell`);
  - the `df.to_csv` / Postgres `COPY ... FORMAT CSV` round trip used by
    `copy_df_to_table` lands both NaN and the empty string as SQL NULL
    (`stageCell`);
  - `pd.to_datetime(..., errors="coerce").dt.date` is modelled by `parseTs`,
    restricted to the ISO-like inputs "YYYY-MM-DD" optionally followed by a
    time of day after a blank or a "T"; every other string coerces to NaT
    (`none`), matching the coercion behaviour on unparseable input;
  - warehouse tables keyed by (day, subid) or subid are total functions from
    the key to an optional row, `none` meaning the key is absent.
String operations are implemented by structural recursion on the character
list so that all definitions evaluate inside the kernel.
-/

/-- A calendar date, the result of truncating a parsed timestamp to a day. -/
structure Date where
  year : Nat
  month : Nat
  day : Nat
deriving DecidableEq

/-- Numeric key used to order dates (month and day are both below 100). -/
def Date.key (d : Date) : Nat := d.year * 10000 + d.month * 100 + d.day

/-- Split a character list at every occurrence of the separator. -/
def splitCharAux (sep : Char) : List Char → List Char → List (List Char)
  | [], acc => [acc.reverse]
  | c :: cs, acc =>
    if c = sep then acc.reverse :: splitCharAux sep cs []
    else splitCharAux sep cs (c :: acc)

/-- Split a character list on a separator character. -/
def splitChar (sep : Char) (l : List Char) : List (List Char) :=
  splitCharAux sep l []

/-- Accumulate a decimal number; fails on the first non-digit. -/
def digitsAux : List Char → Nat → Option Nat
  | [], n => some n
  | c :: cs, n =>
    if c.isDigit then digitsAux cs (n * 10 + (c.toNat - 48)) else none

/-- Parse a non-empty all-digit character list as a natural number. -/
def digitsToNat : List Char → Option Nat
  | [] => none
  | c :: cs => digitsAux (c :: cs) 0

/-- Model of pandas `to_datetime(s, errors="coerce").dt.date` on the formats
this pipeline receives: a leading "YYYY-MM-DD" date, optionally followed by a
time of day after a blank or a "T". Anything else coerces to NaT (`none`). -/
def parseTs (s : String) : Option Date :=
  let afterBlank := (splitChar ' ' s.toList).headD []
  let datePart := (splitChar 'T' afterBlank).headD []
  match splitChar '-' datePart with
  | [y, m, d] =>
    match digitsToNat y, digitsToNat m, digitsToNat d with
    | some yn, some mn, some dn =>
      if y.length = 4 ∧ m.length = 2 ∧ d.length = 2 ∧
         1 ≤ mn ∧ mn ≤ 12 ∧ 1 ≤ dn ∧ dn ≤ 31 then
        some ⟨yn, mn, dn⟩
      else none
    | _, _, _ => none
  | _ => none

/-- Model of pandas `astype(str)` on one cell: NaN prints as "nan". -/
def strCell : Option String → String
  | none => "nan"
  | some s => s

/-- Whitespace for the purposes of Python `str.strip`. -/
def isSpaceChar (c : Char) : Bool :=
  c = ' ' ∨ c = '\t' ∨ c = '\n' ∨ c = '\r'

/-- Python `s.strip()`: drop surrounding whitespace. -/
def trimStr (s : String) : String :=
  ⟨((s.toList.dropWhile isSpaceChar).reverse.dropWhile isSpaceChar).reverse⟩

/-- Python `s.lower()` on the ASCII range, which is all the pipeline's
case-insensitive comparisons need. -/
def lowerStr (s : String) : String :=
  ⟨s.toList.map fun c =>
    if 65 ≤ c.toNat ∧ c.toNat ≤ 90 then Char.ofNat (c.toNat + 32) else c⟩

/-- Model of the `df.to_csv(index=False, header=False)` / `COPY ... FORMAT CSV`
round trip in `copy_df_to_table`: both NaN and the empty string are written as
an empty unquoted field, which COPY reads back as SQL NULL. -/
def stageCell : Option String → Option String
  | none => none
  | some s => if s = "" then none else some s

example : parseTs "2025-01-05 10:00" = some ⟨2025, 1, 5⟩ := by decide
example : parseTs "2025-01-05T10:00" = some ⟨2025, 1, 5⟩ := by decide
example : parseTs "" = none := by decide
example : parseTs "nan" = none := by decide
example : parseTs "2025-1-05" = none := by decide

/-! ## Click ingestion (`load_clicks`)

A chunk of the click CSV, restricted to the columns resolved by `pick_col`,
is a list of rows holding the raw cells of the time column, the tracking-id
column and the six dimension columns. -/

/-- One click-log row, projected onto the resolved columns. -/
structure ClickRow where
  time : Option String
  subid : Option String
  offer : Option String
  country_flag : Option String
  os : Option String
  sub_id_2 : Option String
  campaign : Option String
  sub_id_1 : Option String
deriving DecidableEq

/-- The `chunk["day"]` column: `pd.to_datetime(chunk[time_col],
errors="coerce").dt.date`, NaT on parse failure. -/
def rowDay (r : ClickRow) : Option Date := r.time.bind parseTs

/-- The `chunk["subid"]` column: `chunk[subid_col].astype(str)`. -/
def rowSubid (r : ClickRow) : String := strCell r.subid

/-- One row of the `dim_subid` dimension table (the `updated_at` column is
bookkeeping and not modelled). -/
structure DimRow where
  offer : Option String
  country_flag : Option String
  os : Option String
  sub_id_2 : Option String
  campaign : Option String
  sub_id_1 : Option String
deriving DecidableEq

/-- The six dimension cells of a click row, as selected into the `dim` frame. -/
def dimOf (r : ClickRow) : DimRow :=
  ⟨r.offer, r.country_flag, r.os, r.sub_id_2, r.campaign, r.sub_id_1⟩

/-- Apply the CSV staging round trip to every field of a dimension row, as
`copy_df_to_table` does when filling `staging_dim_subid_tmp`. -/
def stageRow (r : DimRow) : DimRow :=
  ⟨stageCell r.offer, stageCell r.country_flag, stageCell r.os,
   stageCell r.sub_id_2, stageCell r.campaign, stageCell r.sub_id_1⟩

/-- SQL `nullif(x, '')`. -/
def sqlNullif (x : Option String) : Option String :=
  x.bind fun v => if v = "" then none else some v

/-- SQL `coalesce(a, b)` on two nullable strings. -/
def sqlCoalesce (a b : Option String) : Option String :=
  a.orElse fun _ => b

/-- The `update dim_subid ... set f = coalesce(nullif(s.f, ''), d.f)` row
combinator: `s` is the staged incoming row, `old` the existing row. -/
def updDimRow (s old : DimRow) : DimRow :=
  ⟨sqlCoalesce (sqlNullif s.offer) old.offer,
   sqlCoalesce (sqlNullif s.country_flag) old.country_flag,
   sqlCoalesce (sqlNullif s.os) old.os,
   sqlCoalesce (sqlNullif s.sub_id_2) old.sub_id_2,
   sqlCoalesce (sqlNullif s.campaign) old.campaign,
   sqlCoalesce (sqlNullif s.sub_id_1) old.sub_id_1⟩

/-- The `dim_subid` table: tracking-id to dimension row. -/
def DimTable := String → Option DimRow

/-- The deduplicated dimension snapshot of one chunk at one tracking-id:
rows with an empty tracking-id string are filtered out
(`dim["subid"].str.len() > 0`; after `astype(str)` the column is never null),
and of several rows with the same tracking-id only the last is kept
(`drop_duplicates(subset=["subid"], keep="last")`). -/
def snapshotAt (chunk : List ClickRow) (sid : String) : Option DimRow :=
  if sid = "" then none
  else ((chunk.filter fun r => rowSubid r = sid).getLast?).map dimOf

/-- Merge one chunk's dimension snapshot into `dim_subid`: staged rows whose
tracking-id already exists are updated field-wise under the
coalesce-on-non-empty rule; staged rows with a new tracking-id are inserted
as staged. -/
def loadDimChunk (dim : DimTable) (chunk : List ClickRow) : DimTable :=
  fun sid =>
    match snapshotAt chunk sid with
    | none => dim sid
    | some raw =>
      match dim sid with
      | some old => some (updDimRow (stageRow raw) old)
      | none => some (stageRow raw)

/-- The dimension table after the whole click load: one upsert per chunk. -/
def loadClicksDim (dim : DimTable) (chunks : List (List ClickRow)) : DimTable :=
  chunks.foldl loadDimChunk dim

/-- The `fact_clicks_daily` table: (day, subid) to the clicks count. -/
def ClickFacts := Date → String → Option Nat

/-- One chunk's click aggregate at one key:
`chunk.dropna(subset=["day", "subid"]).groupby(["day", "subid"]).size()`.
The subid column is never null after `astype(str)`, so only a failed time
parse drops a row. -/
def chunkAgg (chunk : List ClickRow) (d : Date) (sid : String) : Nat :=
  (chunk.filter fun r => rowDay r = some d ∧ rowSubid r = sid).length

/-- The click load mode selected in the sidebar. -/
inductive Mode
  | replace_day
  | append
deriving DecidableEq

/-- Merge one chunk's aggregate into `fact_clicks_daily`. Keys absent from
the aggregate are untouched; on conflict, `append` adds the staged value to
the existing one and `replace_day` overwrites it with the staged value. -/
def mergeChunk (mode : Mode) (facts : ClickFacts) (chunk : List ClickRow) : ClickFacts :=
  fun d sid =>
    let n := chunkAgg chunk d sid
    if n = 0 then facts d sid
    else
      match mode with
      | Mode.append => some ((facts d sid).getD 0 + n)
      | Mode.replace_day => some n

/-- The chronologically smallest date in a list (pandas `.min()` on dates). -/
def minDate (l : List Date) : Option Date :=
  l.foldl
    (fun acc d =>
      match acc with
      | none => some d
      | some m => if d.key < m.key then some d else some m)
    none

/-- The day detected on the first chunk: `chunk["day"].dropna().min()`.
When the first chunk has no parseable day the source computes NaN and the
subsequent delete is not a well-formed day filter; this is modelled as no
detected day (no delete). -/
def detectedDay : List (List ClickRow) → Option Date
  | [] => none
  | c :: _ => minDate (c.filterMap rowDay)

/-- `delete from fact_clicks_daily where day = :d`. -/
def deleteDay (facts : ClickFacts) (d : Date) : ClickFacts :=
  fun d2 sid => if d2 = d then none else facts d2 sid

/-- The `fact_clicks_daily` table after `load_clicks` on a file read as the
given chunks: in `replace_day` mode the detected day is deleted before the
first merge, then every chunk's aggregate is merged in order. -/
def loadClicksFacts (mode : Mode) (facts : ClickFacts)
    (chunks : List (List ClickRow)) : ClickFacts :=
  let facts1 :=
    match mode, detectedDay chunks with
    | Mode.replace_day, some d => deleteDay facts d
    | _, _ => facts
  chunks.foldl (mergeChunk mode) facts1

/-- The empty `fact_clicks_daily` table. -/
def emptyClickFacts : ClickFacts := fun _ _ => none

/-- The empty `dim_subid` table. -/
def emptyDim : DimTable := fun _ => none

/-- Row 1 of the C2 scenario. -/
def rA : ClickRow :=
  ⟨some "2025-01-05 10:00", some "42", some "X", none, none, none, none, none⟩

/-- Row 2 of the C2 scenario (empty offer). -/
def rB : ClickRow :=
  ⟨some "2025-01-05 11:00", some "42", some "", none, none, none, none, none⟩

/-- A click row for an unrelated tracking-id. -/
def rC : ClickRow :=
  ⟨some "2025-01-05 12:00", some "7", none, none, none, none, none, none⟩

/-- 2025-01-05. -/
def d05 : Date := ⟨2025, 1, 5⟩

example : loadClicksFacts Mode.replace_day emptyClickFacts [[rA, rB]] d05 "42" = some 2 := by decide
example : loadClicksFacts Mode.replace_day emptyClickFacts [[rA], [rB]] d05 "42" = some 1 := by decide
example : (loadClicksDim emptyDim [[rA, rB]]) "42" = some ⟨none, none, none, none, none, none⟩ := by decide

/-! ## Conversion ingestion (`load_conversions`) -/

/-- One conversion-log row, projected onto the resolved columns. When no
sale-time column resolved, the `sale_time` cell is unused. -/
structure ConvRow where
  subid : Option String
  status : Option String
  conv_time : Option String
  sale_time : Option String
deriving DecidableEq

/-- A conversion file: its rows and whether a sale-time column resolved. -/
structure ConvFile where
  rows : List ConvRow
  hasSaleCol : Bool
deriving DecidableEq

/-- The `fact_conversions_daily` table: (day, subid) to (leads, sales). -/
def ConvFacts := Date → String → Option (Nat × Nat)

/-- `df["_status"] = df[status_col].astype(str).str.lower()`. -/
def statusOf (r : ConvRow) : String := lowerStr (strCell r.status)

/-- `df["subid"] = df[subid_col].astype(str)`. -/
def convSubid (r : ConvRow) : String := strCell r.subid

/-- `df["day_lead"]`: the conversion time parsed to a date. -/
def dayLead (r : ConvRow) : Option Date := r.conv_time.bind parseTs

/-- The effective sale timestamp of a row:
`df[sale_time_col].where(df[sale_time_col].notna() &
(df[sale_time_col].astype(str) != ""), df[conv_time_col])` when a sale-time
column resolved, else the conversion-time column. -/
def effSaleTime (file : ConvFile) (r : ConvRow) : Option String :=
  if file.hasSaleCol then
    match r.sale_time with
    | some v => if v = "" then r.conv_time else some v
    | none => r.conv_time
  else r.conv_time

/-- `df["day_sale"]`: the effective sale timestamp parsed to a date. -/
def daySale (file : ConvFile) (r : ConvRow) : Option Date :=
  (effSaleTime file r).bind parseTs

/-- The `leads` aggregate at one key: rows with status "lead", grouped by
(day_lead, subid) after dropping rows with an unparseable conversion time. -/
def leadCount (file : ConvFile) (d : Date) (sid : String) : Nat :=
  (file.rows.filter fun r =>
    statusOf r = "lead" ∧ dayLead r = some d ∧ convSubid r = sid).length

/-- The `sales` aggregate at one key: rows with status "sale", grouped by
(day_sale, subid) after dropping rows with an unparseable sale day. -/
def saleCount (file : ConvFile) (d : Date) (sid : String) : Nat :=
  (file.rows.filter fun r =>
    statusOf r = "sale" ∧ daySale file r = some d ∧ convSubid r = sid).length

/-- The outer merge of the two aggregates with zero fill: a key is staged
iff it carries at least one lead or sale. -/
def mergedAt (file : ConvFile) (d : Date) (sid : String) : Option (Nat × Nat) :=
  let l := leadCount file d sid
  let s := saleCount file d sid
  if l = 0 ∧ s = 0 then none else some (l, s)

/-- The `fact_conversions_daily` table after `load_conversions`: staged keys
are written with the staged values (`update` existing keys, `insert` new
ones); all other keys are untouched. -/
def loadConversions (facts : ConvFacts) (file : ConvFile) : ConvFacts :=
  fun d sid =>
    match mergedAt file d sid with
    | some v => some v
    | none => facts d sid

/-- The empty `fact_conversions_daily` table. -/
def emptyConvFacts : ConvFacts := fun _ _ => none

/-- The single-row conversion file of the C9 example: a sale with an absent
sale time and conversion time "2025-01-05T10:00". -/
def convFileEx : ConvFile :=
  ⟨[⟨some "42", some "sale", some "2025-01-05T10:00", none⟩], true⟩

example : saleCount convFileEx d05 "42" = 1 := by decide
example : mergedAt convFileEx d05 "42" = some (0, 1) := by decide

/-! ## Column resolution (`pick_col`)

`pick_col` receives the actual header list and the priority-ordered candidate
list. The Python dicts `stripped_map` and `lowered` are modelled as
association lists built by a left fold that prepends, so a later header with
the same key shadows an earlier one exactly as dict insertion overwrites.
Python `str.strip` and `str.lower` are modelled on the character list
(`trimStr`, `lowerStr`; `lowerStr` covers the ASCII range, which is all the
case-insensitive pass needs for the headers in scope). -/

/-- First-match lookup in an association list (the dict model: the list is
built newest-first, so the first hit is the latest insertion). -/
def mapLookup : List (String × String) → String → Option String
  | [], _ => none
  | (k, v) :: m, key => if k = key then some v else mapLookup m key

/-- `{f(c): c for c in df.columns}`: fold the headers into the dict model,
newest entry in front. -/
def buildMap (f : String → String) (headers : List String) : List (String × String) :=
  headers.foldl (fun m h => (f h, h) :: m) []

/-- Pass 1 of `pick_col`: for each candidate in order, look it up verbatim in
the stripped-header map. -/
def pass1 (m : List (String × String)) : List String → Option String
  | [] => none
  | c :: cs =>
    match mapLookup m c with
    | some h => some h
    | none => pass1 m cs

/-- Pass 2 of `pick_col`: for each candidate in order, look up its lowered,
stripped form in the lowered-header map. -/
def pass2 (m : List (String × String)) : List String → Option String
  | [] => none
  | c :: cs =>
    match mapLookup m (trimStr (lowerStr c)) with
    | some h => some h
    | none => pass2 m cs

/-- `pick_col(df, candidates)`: exact pass over the stripped headers, then
case-insensitive pass, else a `KeyError` carrying the candidate list and the
actual header list. -/
def pick_col (headers cands : List String) : Except (List String × List String) String :=
  match pass1 (buildMap trimStr headers) cands with
  | some h => Except.ok h
  | none =>
    match pass2 (buildMap (fun h => trimStr (lowerStr h)) headers) cands with
    | some h => Except.ok h
    | none => Except.error (cands, headers)

/-- Pass 1 as the claim words it: the candidate is also trimmed before the
exact comparison. -/
def pass1Claimed (m : List (String × String)) : List String → Option String
  | [] => none
  | c :: cs =>
    match mapLookup m (trimStr c) with
    | some h => some h
    | none => pass1Claimed m cs

/-- Column resolution as claim C7 states it, differing from `pick_col` only
in that the exact pass trims the candidate names too. -/
def pick_colClaimed (headers cands : List String) : Except (List String × List String) String :=
  match pass1Claimed (buildMap trimStr headers) cands with
  | some h => Except.ok h
  | none =>
    match pass2 (buildMap (fun h => trimStr (lowerStr h)) headers) cands with
    | some h => Except.ok h
    | none => Except.error (cands, headers)

example : pick_col ["b", "A"] [" A ", "b"] = Except.ok "b" := rfl
example : pick_colClaimed ["b", "A"] [" A ", "b"] = Except.ok "A" := rfl
example : pick_col ["Время клика", "Click time"] ["Время клика", "Click time"] = Except.ok "Время клика" := rfl
example : pick_col ["CLICK TIME"] ["Click time"] = Except.ok "CLICK TIME" := rfl

/-! ## Transaction scope (`engine.begin`)

`load_clicks` opens one `engine.begin()` transaction around the whole chunk
loop, and `load_conversions` one around the whole staged merge. The database
layer makes each such transaction all-or-nothing: if an error is raised while
processing some chunk (respectively the file), nothing inside the transaction
commits. The models below take the failure point as an explicit argument. -/

/-- Committed `fact_clicks_daily` state of a `load_clicks` call that raises
while processing chunk `k` (0-based): the single file-level transaction rolls
back, so nothing commits. Without a failure the full load commits. -/
def loadClicksTx (mode : Mode) (facts : ClickFacts)
    (chunks : List (List ClickRow)) (failAt : Option Nat) : ClickFacts :=
  match failAt with
  | some k =>
    if k < chunks.length then facts else loadClicksFacts mode facts chunks
  | none => loadClicksFacts mode facts chunks

/-- Committed `fact_conversions_daily` state of a `load_conversions` call:
its single transaction likewise commits everything or nothing. -/
def loadConvTx (facts : ConvFacts) (file : ConvFile) (fail : Bool) : ConvFacts :=
  if fail then facts else loadConversions facts file

/-! ## Closed forms of the per-chunk merge folds -/

/-- The aggregate of the last chunk that carries the key, if any: the value a
`replace_day` merge sequence leaves at the key. -/
def lastAgg : List (List ClickRow) → Date → String → Option Nat
  | [], _, _ => none
  | c :: cs, d, sid =>
    match lastAgg cs d sid with
    | some n => some n
    | none => if chunkAgg c d sid = 0 then none else some (chunkAgg c d sid)

/-- The total click count of a chunked file at one key. -/
def totalAgg : List (List ClickRow) → Date → String → Nat
  | [], _, _ => 0
  | c :: cs, d, sid => chunkAgg c d sid + totalAgg cs d sid

theorem mergeChunk_replace_apply (f : ClickFacts) (c : List ClickRow)
    (d : Date) (sid : String) :
    mergeChunk Mode.replace_day f c d sid =
      if chunkAgg c d sid = 0 then f d sid else some (chunkAgg c d sid) := by
  by_cases h : chunkAgg c d sid = 0 <;> simp [mergeChunk, h]

theorem mergeChunk_append_apply (f : ClickFacts) (c : List ClickRow)
    (d : Date) (sid : String) :
    mergeChunk Mode.append f c d sid =
      if chunkAgg c d sid = 0 then f d sid
      else some ((f d sid).getD 0 + chunkAgg c d sid) := by
  by_cases h : chunkAgg c d sid = 0 <;> simp [mergeChunk, h]

theorem foldl_replace_eq (chunks : List (List ClickRow)) :
    ∀ (f : ClickFacts) (d : Date) (sid : String),
      (chunks.foldl (mergeChunk Mode.replace_day) f) d sid =
        match lastAgg chunks d sid with
        | some n => some n
        | none => f d sid := by
  induction chunks with
  | nil => intro f d sid; rfl
  | cons c cs ih =>
    intro f d sid
    rw [List.foldl_cons, ih]
    show _ = (match lastAgg (c :: cs) d sid with
      | some n => some n
      | none => f d sid)
    cases h : lastAgg cs d sid with
    | some n => simp [lastAgg, h]
    | none =>
      by_cases h0 : chunkAgg c d sid = 0 <;>
        simp [lastAgg, h, h0, mergeChunk_replace_apply]

theorem foldl_append_eq (chunks : List (List ClickRow)) :
    ∀ (f : ClickFacts) (d : Date) (sid : String),
      (chunks.foldl (mergeChunk Mode.append) f) d sid =
        if totalAgg chunks d sid = 0 then f d sid
        else some ((f d sid).getD 0 + totalAgg chunks d sid) := by
  induction chunks with
  | nil => intro f d sid; rfl
  | cons c cs ih =>
    intro f d sid
    rw [List.foldl_cons, ih]
    by_cases h0 : chunkAgg c d sid = 0
    · by_cases h1 : totalAgg cs d sid = 0 <;>
        simp [totalAgg, h0, h1, mergeChunk_append_apply]
    · by_cases h1 : totalAgg cs d sid = 0 <;>
        simp [totalAgg, h0, h1, mergeChunk_append_apply, Nat.add_assoc]

theorem load_append_foldl (f : ClickFacts) (chunks : List (List ClickRow)) :
    loadClicksFacts Mode.append f chunks = chunks.foldl (mergeChunk Mode.append) f := rfl

/-! ## Claims -/

/-- C1: for every click-log file and load mode, the final `ClickFact` table is
claimed to be independent of the chunking. The code refutes this in
`replace_day` mode: the on-conflict action overwrites instead of adding, so
when the two rows of the key (2025-01-05, "42") arrive in one chunk the key
ends at 2 clicks, but split across two chunks the second chunk's count 1
overwrites the first and the key ends at 1 click. -/
theorem c1_chunk_size_dependence :
    loadClicksFacts Mode.replace_day emptyClickFacts [[rA, rB]] d05 "42" = some 2 ∧
    loadClicksFacts Mode.replace_day emptyClickFacts [[rA], [rB]] d05 "42" = some 1 ∧
    loadClicksFacts Mode.replace_day emptyClickFacts [[rA, rB]] d05 "42" ≠
      loadClicksFacts Mode.replace_day emptyClickFacts [[rA], [rB]] d05 "42" := by
  refine ⟨by decide, by decide, by decide⟩

/-- C3: loading the same click file twice in `replace_day` mode yields the
same `ClickFact` table as loading it once: the detected day is deleted again
and every key of the file is re-merged to the same value, keys outside the
file are untouched. -/
theorem c3_replace_day_idempotent (facts : ClickFacts)
    (chunks : List (List ClickRow)) (d : Date) (sid : String) :
    loadClicksFacts Mode.replace_day
        (loadClicksFacts Mode.replace_day facts chunks) chunks d sid =
      loadClicksFacts Mode.replace_day facts chunks d sid := by
  cases hdet : detectedDay chunks with
  | none =>
    simp only [loadClicksFacts, hdet]
    rw [foldl_replace_eq, foldl_replace_eq]
    cases lastAgg chunks d sid <;> rfl
  | some m =>
    simp only [loadClicksFacts, hdet]
    rw [foldl_replace_eq, foldl_replace_eq]
    cases h : lastAgg chunks d sid with
    | some n => rfl
    | none =>
      show deleteDay (chunks.foldl (mergeChunk Mode.replace_day)
          (deleteDay facts m)) m d sid = _
      rw [deleteDay, foldl_replace_eq, h]
      by_cases hd : d = m <;> simp [deleteDay, hd]

/-- C4: loading two click files covering the same day in `append` mode,
starting from an empty warehouse, gives every key the sum of the clicks the
two files produce when loaded independently. The append merge is purely
additive, so this holds for every pair of files — in particular for the
claim's disjoint pair — and also at a key both files carry, where the two
counts genuinely add. -/
theorem c4_append_additive (A B : List (List ClickRow))
    (d : Date) (sid : String) :
    ((loadClicksFacts Mode.append
        (loadClicksFacts Mode.append emptyClickFacts A) B) d sid).getD 0 =
      ((loadClicksFacts Mode.append emptyClickFacts A) d sid).getD 0 +
      ((loadClicksFacts Mode.append emptyClickFacts B) d sid).getD 0 := by
  have hA := foldl_append_eq A emptyClickFacts d sid
  have hB := foldl_append_eq B emptyClickFacts d sid
  have hAB := foldl_append_eq B
    (List.foldl (mergeChunk Mode.append) emptyClickFacts A) d sid
  show (List.foldl (mergeChunk Mode.append)
      (List.foldl (mergeChunk Mode.append) emptyClickFacts A) B d sid).getD 0 =
    (List.foldl (mergeChunk Mode.append) emptyClickFacts A d sid).getD 0 +
    (List.foldl (mergeChunk Mode.append) emptyClickFacts B d sid).getD 0
  rw [hAB, hA, hB]
  by_cases h1 : totalAgg A d sid = 0 <;> by_cases h2 : totalAgg B d sid = 0 <;>
    simp [h1, h2, emptyClickFacts]

example :
    (loadClicksFacts Mode.append
      (loadClicksFacts Mode.append emptyClickFacts [[rA]]) [[rB]]) d05 "42" = some 2 := by
  decide

/-- C2 counterexample: in the two-row scenario the chunk's dimension snapshot
keeps only the last row per tracking-id (`keep="last"`), whose offer is
empty; tracking-id "42" is new, so the insert path stores that empty offer as
NULL. The claimed `TrackingDimension(id=42, offer="X")` does not appear. -/
theorem c2_counterexample :
    ((loadClicksDim emptyDim [[rA, rB]]) "42").map DimRow.offer = some none ∧
    ((loadClicksDim emptyDim [[rA, rB]]) "42").map DimRow.offer ≠ some (some "X") := by
  refine ⟨by decide, by decide⟩

/-- C2 (amended): loading the two-row file in `replace_day` mode against any
warehouse with no dimension row for "42" produces
`ClickFact(2025-01-05, "42", clicks = 2)`, and inserts a `TrackingDimension`
row for "42" whose fields are all NULL: the dedup keeps the second row, whose
offer is empty, and the insert path stages empty as NULL — offer "X" from the
first row is not retained. -/
theorem c2_amended (facts : ClickFacts) (dim : DimTable)
    (hdim : dim "42" = none) :
    loadClicksFacts Mode.replace_day facts [[rA, rB]] d05 "42" = some 2 ∧
    (loadClicksDim dim [[rA, rB]]) "42" =
      some ⟨none, none, none, none, none, none⟩ := by
  constructor
  · have hdet : detectedDay [[rA, rB]] = some d05 := by decide
    have hagg : chunkAgg [rA, rB] d05 "42" = 2 := by decide
    simp only [loadClicksFacts, hdet, List.foldl_cons, List.foldl_nil]
    rw [mergeChunk_replace_apply, hagg]
    simp
  · have hsnap : snapshotAt [rA, rB] "42" = some (dimOf rB) := by decide
    simp only [loadClicksDim, List.foldl_cons, List.foldl_nil, loadDimChunk,
      hsnap, hdim]
    decide

theorem c2_amended_witness :
    loadClicksFacts Mode.replace_day emptyClickFacts [[rA, rB]] d05 "42" = some 2 ∧
    (loadClicksDim emptyDim [[rA, rB]]) "42" =
      some ⟨none, none, none, none, none, none⟩ :=
  c2_amended emptyClickFacts emptyDim rfl

/-- C5: loading the same conversion file twice yields the same
`ConversionFact` table as loading it once: every staged key is overwritten
with the same staged values, every other key is untouched. -/
theorem c5_conversions_idempotent (facts : ConvFacts) (file : ConvFile)
    (d : Date) (sid : String) :
    loadConversions (loadConversions facts file) file d sid =
      loadConversions facts file d sid := by
  cases h : mergedAt file d sid <;> simp [loadConversions, h]

/-- C6: the `TrackingDimension` upsert of one chunk, at a tracking-id that
already has a row: every field whose incoming snapshot value is empty or
missing keeps its existing value, and every field whose incoming value is
non-empty is overwritten with it. -/
theorem c6_dim_non_erasure (dim : DimTable) (chunk : List ClickRow)
    (sid : String) (old inc : DimRow)
    (hdim : dim sid = some old) (hsnap : snapshotAt chunk sid = some inc) :
    (loadDimChunk dim chunk) sid = some
      ⟨if inc.offer = none ∨ inc.offer = some "" then old.offer else inc.offer,
       if inc.country_flag = none ∨ inc.country_flag = some "" then
         old.country_flag else inc.country_flag,
       if inc.os = none ∨ inc.os = some "" then old.os else inc.os,
       if inc.sub_id_2 = none ∨ inc.sub_id_2 = some "" then
         old.sub_id_2 else inc.sub_id_2,
       if inc.campaign = none ∨ inc.campaign = some "" then
         old.campaign else inc.campaign,
       if inc.sub_id_1 = none ∨ inc.sub_id_1 = some "" then
         old.sub_id_1 else inc.sub_id_1⟩ := by
  have hcell : ∀ x y : Option String,
      sqlCoalesce (sqlNullif (stageCell x)) y =
        if x = none ∨ x = some "" then y else x := by
    intro x y
    match x with
    | none => rfl
    | some v =>
      by_cases hv : v = "" <;> simp [stageCell, sqlNullif, sqlCoalesce, hv]
  simp only [loadDimChunk, hsnap, hdim, updDimRow, stageRow, hcell]

/-- An existing dimension table holding offer "A" and campaign "C" for
tracking-id "42". -/
def dimA : DimTable :=
  fun sid =>
    if sid = "42" then some ⟨some "A", none, none, none, some "C", none⟩
    else none

/-- An incoming click row for "42" with an empty offer, a new OS value and a
missing campaign. -/
def rUpd : ClickRow :=
  ⟨some "2025-01-06 09:00", some "42", some "", none, some "ios", none, none, none⟩

theorem c6_dim_non_erasure_witness :
    (loadDimChunk dimA [rUpd]) "42" = some
      ⟨if (some "" : Option String) = none ∨ (some "" : Option String) = some "" then
         some "A" else some "",
       if (none : Option String) = none ∨ (none : Option String) = some "" then
         none else none,
       if (some "ios" : Option String) = none ∨ (some "ios" : Option String) = some "" then
         none else some "ios",
       if (none : Option String) = none ∨ (none : Option String) = some "" then
         none else none,
       if (none : Option String) = none ∨ (none : Option String) = some "" then
         some "C" else none,
       if (none : Option String) = none ∨ (none : Option String) = some "" then
         none else none⟩ :=
  c6_dim_non_erasure dimA [rUpd] "42"
    ⟨some "A", none, none, none, some "C", none⟩
    ⟨some "", none, some "ios", none, none, none⟩ rfl (by decide)

example : (loadDimChunk dimA [rUpd]) "42" =
    some ⟨some "A", none, some "ios", none, some "C", none⟩ := by decide

/-! ## Column resolution, described form

The amended description of `pick_col` iterates the candidates in priority
order and searches the headers from the end (a later header that maps to the
same key shadows an earlier one, as dict insertion does). -/

/-- The last header whose stripped form equals the candidate, verbatim. -/
def lastExact (headers : List String) (c : String) : Option String :=
  headers.reverse.find? fun h => trimStr h = c

/-- The exact pass in described form: first candidate with a stripped-header
match wins. -/
def exactPass (headers : List String) : List String → Option String
  | [] => none
  | c :: cs =>
    match lastExact headers c with
    | some h => some h
    | none => exactPass headers cs

/-- The last header matching the candidate case-insensitively after both are
lowered and stripped. -/
def lastCI (headers : List String) (c : String) : Option String :=
  headers.reverse.find? fun h => trimStr (lowerStr h) = trimStr (lowerStr c)

/-- The case-insensitive pass in described form. -/
def ciPass (headers : List String) : List String → Option String
  | [] => none
  | c :: cs =>
    match lastCI headers c with
    | some h => some h
    | none => ciPass headers cs

/-- Column resolution as the amended claim describes it: exact pass with
verbatim candidates against stripped headers, then case-insensitive pass,
else an error carrying the full candidate and header lists. -/
def resolveDescribed (headers cands : List String) :
    Except (List String × List String) String :=
  match exactPass headers cands with
  | some h => Except.ok h
  | none =>
    match ciPass headers cands with
    | some h => Except.ok h
    | none => Except.error (cands, headers)

theorem mapLookup_foldl (f : String → String) (hs : List String) :
    ∀ (m : List (String × String)) (key : String),
      mapLookup (hs.foldl (fun m h => (f h, h) :: m) m) key =
        match hs.reverse.find? (fun h => f h = key) with
        | some h => some h
        | none => mapLookup m key := by
  induction hs with
  | nil => intro m key; rfl
  | cons h hs ih =>
    intro m key
    rw [List.foldl_cons, ih, List.reverse_cons, List.find?_append]
    cases hfind : hs.reverse.find? (fun h => f h = key) with
    | some x => rfl
    | none =>
      show mapLookup ((f h, h) :: m) key =
        (match ([h].find? fun h => f h = key) with
          | some h => some h
          | none => mapLookup m key)
      by_cases hk : f h = key <;> simp [mapLookup, List.find?, hk]

theorem mapLookup_buildMap (f : String → String) (headers : List String)
    (key : String) :
    mapLookup (buildMap f headers) key =
      headers.reverse.find? (fun h => f h = key) := by
  rw [buildMap, mapLookup_foldl]
  cases headers.reverse.find? (fun h => f h = key) <;> rfl

theorem pass1_eq (headers : List String) :
    ∀ cands, pass1 (buildMap trimStr headers) cands = exactPass headers cands := by
  intro cands
  induction cands with
  | nil => rfl
  | cons c cs ih =>
    show (match mapLookup (buildMap trimStr headers) c with
      | some h => some h
      | none => pass1 (buildMap trimStr headers) cs) = _
    rw [mapLookup_buildMap, ih]
    rfl

theorem pass2_eq (headers : List String) :
    ∀ cands, pass2 (buildMap (fun h => trimStr (lowerStr h)) headers) cands =
      ciPass headers cands := by
  intro cands
  induction cands with
  | nil => rfl
  | cons c cs ih =>
    show (match mapLookup (buildMap (fun h => trimStr (lowerStr h)) headers)
        (trimStr (lowerStr c)) with
      | some h => some h
      | none => pass2 (buildMap (fun h => trimStr (lowerStr h)) headers) cs) = _
    rw [mapLookup_buildMap, ih]
    rfl

/-- C7 counterexample: with headers ["b", "A"] and candidates [" A ", "b"],
the code's exact pass uses the candidate " A " verbatim, misses the header
"A", and falls through to the candidate "b"; the claimed algorithm trims the
candidate too and returns "A". -/
theorem c7_counterexample :
    pick_col ["b", "A"] [" A ", "b"] = Except.ok "b" ∧
    pick_colClaimed ["b", "A"] [" A ", "b"] = Except.ok "A" ∧
    pick_col ["b", "A"] [" A ", "b"] ≠ pick_colClaimed ["b", "A"] [" A ", "b"] := by
  refine ⟨rfl, rfl, ?_⟩
  intro h
  have h2 : (Except.ok "b" : Except (List String × List String) String) =
      Except.ok "A" := h
  exact absurd (Except.ok.inj h2) (by decide)

/-- C7 (amended): column resolution first tries an exact match of each
candidate, used verbatim, against the whitespace-trimmed actual headers in
candidate-priority order (among headers that trim to the same key the last
one wins); if that fails it tries a case-insensitive trimmed match of both
sides in the same order; if both passes fail it errors with the full
candidate list and the full actual header list. The two concrete examples of
the claim hold. -/
theorem c7_amended :
    (∀ headers cands, pick_col headers cands = resolveDescribed headers cands) ∧
    pick_col ["Время клика", "Click time"] ["Время клика", "Click time"] =
      Except.ok "Время клика" ∧
    pick_col ["CLICK TIME"] ["Click time"] = Except.ok "CLICK TIME" := by
  refine ⟨?_, rfl, rfl⟩
  intro headers cands
  simp only [pick_col, resolveDescribed, pass1_eq, pass2_eq]

/-- C8 counterexample: `load_clicks` runs all chunks inside one transaction,
so an error in the second chunk also rolls back the first chunk's merge: the
committed table is empty, not the claimed state as of the start of the
failing chunk (which would hold the first chunk's key at 1 click). -/
theorem c8_counterexample :
    loadClicksTx Mode.append emptyClickFacts [[rA], [rC]] (some 1) d05 "42" = none ∧
    loadClicksFacts Mode.append emptyClickFacts [[rA]] d05 "42" = some 1 ∧
    loadClicksTx Mode.append emptyClickFacts [[rA], [rC]] (some 1) d05 "42" ≠
      loadClicksFacts Mode.append emptyClickFacts [[rA]] d05 "42" := by
  refine ⟨by decide, by decide, by decide⟩

/-- C8 (amended): the staged merge is atomic with its staging population,
with an atomicity boundary of one full file for both loaders: an error while
processing any chunk of a click file, or anywhere in a conversion load,
leaves the destination fact table exactly as it was before the file started,
with no partial aggregate visible. -/
theorem c8_amended (mode : Mode) (facts : ClickFacts)
    (chunks : List (List ClickRow)) (k : Nat) (hk : k < chunks.length)
    (cfacts : ConvFacts) (file : ConvFile) (d : Date) (sid : String) :
    loadClicksTx mode facts chunks (some k) d sid = facts d sid ∧
    loadConvTx cfacts file true d sid = cfacts d sid := by
  constructor
  · simp [loadClicksTx, hk]
  · rfl

theorem c8_amended_witness :
    loadClicksTx Mode.append emptyClickFacts [[rA], [rC]] (some 1) d05 "42" =
      emptyClickFacts d05 "42" ∧
    loadConvTx emptyConvFacts convFileEx true d05 "42" =
      emptyConvFacts d05 "42" :=
  c8_amended Mode.append emptyClickFacts [[rA], [rC]] 1 (by decide)
    emptyConvFacts convFileEx d05 "42"

/-- C9: `day_lead` comes from the conversion-time column; `day_sale` comes
from the sale-time column when it resolved and the row's value is non-empty,
and otherwise falls back to that row's conversion-time value (also when no
sale-time column resolved); the concrete sale row with an absent sale time
and conversion time "2025-01-05T10:00" is counted under
`day_sale = 2025-01-05`. -/
theorem c9_day_sale_fallback :
    (∀ (file : ConvFile) (r : ConvRow) (v : String), file.hasSaleCol = true →
      r.sale_time = some v → v ≠ "" → daySale file r = parseTs v) ∧
    (∀ (file : ConvFile) (r : ConvRow), file.hasSaleCol = true →
      (r.sale_time = none ∨ r.sale_time = some "") →
      daySale file r = r.conv_time.bind parseTs) ∧
    (∀ (file : ConvFile) (r : ConvRow), file.hasSaleCol = false →
      daySale file r = r.conv_time.bind parseTs) ∧
    (∀ (r : ConvRow), dayLead r = r.conv_time.bind parseTs) ∧
    saleCount convFileEx d05 "42" = 1 := by
  refine ⟨?_, ?_, ?_, fun r => rfl, by decide⟩
  · intro file r v hcol hst hv
    simp [daySale, effSaleTime, hcol, hst, hv]
  · intro file r hcol hst
    rcases hst with h | h <;> simp [daySale, effSaleTime, hcol, h]
  · intro file r hcol
    simp [daySale, effSaleTime, hcol]

theorem c9_day_sale_fallback_witness :
    daySale convFileEx ⟨some "42", some "sale", some "2025-01-05T10:00", none⟩ =
      (some "2025-01-05T10:00" : Option String).bind parseTs :=
  c9_day_sale_fallback.2.1 convFileEx
    ⟨some "42", some "sale", some "2025-01-05T10:00", none⟩ rfl (Or.inl rfl)

/-- A click row whose tracking-id cell is missing (NaN). -/
def rNan : ClickRow :=
  ⟨some "2025-01-05 09:00", none, none, none, none, none, none, none⟩

/-- C10: a click row is excluded from a chunk's aggregate exactly when its
time cell fails to parse; the tracking-id never causes exclusion, since a
row with a parseable time is counted exactly once, under its stringified
tracking-id, which for a missing cell is the literal "nan". The aggregate is
additive over chunk concatenation, so the per-singleton statements determine
every chunk. -/
theorem c10_row_exclusion :
    (∀ (c1 c2 : List ClickRow) (d : Date) (sid : String),
      chunkAgg (c1 ++ c2) d sid = chunkAgg c1 d sid + chunkAgg c2 d sid) ∧
    (∀ (r : ClickRow), r.time.bind parseTs = none →
      ∀ (d : Date) (sid : String), chunkAgg [r] d sid = 0) ∧
    (∀ (r : ClickRow) (d : Date), r.time.bind parseTs = some d →
      chunkAgg [r] d (rowSubid r) = 1 ∧
      ∀ (d2 : Date) (sid2 : String), ¬(d2 = d ∧ sid2 = rowSubid r) →
        chunkAgg [r] d2 sid2 = 0) ∧
    (∀ (r : ClickRow), r.subid = none → rowSubid r = "nan") := by
  refine ⟨?_, ?_, ?_, ?_⟩
  · intro c1 c2 d sid
    simp [chunkAgg, List.filter_append]
  · intro r h d sid
    simp [chunkAgg, List.filter, rowDay, h]
  · intro r d h
    constructor
    · simp [chunkAgg, List.filter, rowDay, h]
    · intro d2 sid2 hne
      simp only [chunkAgg, List.filter, rowDay, h]
      by_cases hd : d = d2
      · by_cases hs : rowSubid r = sid2
        · exact absurd ⟨hd.symm, hs.symm⟩ hne
        · simp [hd, hs]
      · simp [hd]
  · intro r h
    simp [rowSubid, strCell, h]

theorem c10_row_exclusion_witness :
    chunkAgg [rNan] d05 (rowSubid rNan) = 1 ∧ rowSubid rNan = "nan" :=
  ⟨(c10_row_exclusion.2.2.1 rNan d05 (by decide)).1,
   c10_row_exclusion.2.2.2 rNan rfl⟩
